import Mathlib

/-!
Sokoswift checkout script: a shallow embedding of `Templates/script.js`.

The script registers, at `DOMContentLoaded`, one click listener on the element
with id `complete-order`.  The listener prevents the default action, shows the
element with id `stk-modal`, and schedules (with `setTimeout(..., 5000)`) a
callback that overwrites the inner markup of that element with a fixed text.

The embedding keeps the two elements the script looks up, the listener
registration, the flag of the click event, and the browser timer queue
(clock, identifiers handed out by `setTimeout`, pending one-shot timers, the
record of the timers that ran, and the errors that reached the top level).
-/

namespace Sokoswift

/-- The two properties of a DOM element that the script writes. -/
structure Element where
  display : String
  innerHTML : String
deriving DecidableEq, Repr

/-- Errors the script can raise: a property access on `null`. -/
inductive JsError where
  | typeError
deriving DecidableEq, Repr

/-- A one-shot timer made by `setTimeout`: its identifier, the delay it was
requested with, and the clock value from which it may run. -/
structure Timer where
  id : Nat
  delay : Nat
  due : Nat
deriving DecidableEq, Repr

/-- The page as the script sees it.  `completeOrderBtn` and `stkModal` are what
`document.getElementById` returns for the two identifiers (`none` is `null`);
no operation of the script adds or removes an element, so the references the
closures capture at load time are these same fields. -/
structure PageState where
  completeOrderBtn : Option Element
  stkModal : Option Element
  listenerAttached : Bool
  defaultPrevented : Bool
  now : Nat
  nextTimerId : Nat
  pending : List Timer
  firedLog : List Nat
  uncaught : List JsError
deriving DecidableEq, Repr

/-- How a function body ends: normally, or by throwing, in both cases with
the state reached so far. -/
inductive Completion where
  | normal (s : PageState)
  | throw (e : JsError) (s : PageState)
deriving DecidableEq, Repr

/-- The state in which a body ended. -/
def Completion.state : Completion → PageState
  | .normal s => s
  | .throw _ s => s

/-- The error a body ended with, if any. -/
def Completion.error : Completion → Option JsError
  | .normal _ => none
  | .throw e _ => some e

/-- The template literal assigned to `stkModal.innerHTML` (script.js, lines 14-21). -/
def successMarkup : String :=
  "\n                    <div class=\"modal-content\">\n                        <h3 style=\"color: #00b894;\">Payment Successful!</h3>\n                        <p>Your order has been confirmed.</p>\n                        <p>Order ID: #SS1024</p>\n                        <a href=\"index.html\" class=\"btn\">Back to Store</a>\n                    </div>\n                "

/-- Browser `setTimeout(callback, delay)`: a fresh identifier, a new pending
timer due `delay` milliseconds from now.  The only callback the script ever
passes is `timerCallback`, so the timer does not carry it. -/
def setTimeout (delay : Nat) (s : PageState) : PageState :=
  { s with
    pending := s.pending ++ [{ id := s.nextTimerId, delay := delay, due := s.now + delay }]
    nextTimerId := s.nextTimerId + 1 }

/-- The callback passed to `setTimeout` (script.js, lines 13-22):
`stkModal.innerHTML = <template literal>`. -/
def timerCallback (s : PageState) : Completion :=
  match s.stkModal with
  | none => .throw .typeError s
  | some m => .normal { s with stkModal := some { m with innerHTML := successMarkup } }

/-- The click listener (script.js, lines 6-23): `e.preventDefault()`, then
`stkModal.style.display = "block"`, then `setTimeout(callback, 5000)`. -/
def clickListener (s : PageState) : Completion :=
  let s1 := { s with defaultPrevented := true }
  match s1.stkModal with
  | none => .throw .typeError s1
  | some m =>
    let s2 := { s1 with stkModal := some { m with display := "block" } }
    .normal (setTimeout 5000 s2)

/-- The `DOMContentLoaded` listener (script.js, lines 1-25): two lookups, and
the click listener is registered only when the button was found. -/
def domContentLoaded (s : PageState) : Completion :=
  match s.completeOrderBtn with
  | some _ => .normal { s with listenerAttached := true }
  | none => .normal s

/-- The top level of the event loop: an error thrown by a listener or a timer
callback is reported and the loop goes on. -/
def report : Completion → PageState
  | .normal s => s
  | .throw e s => { s with uncaught := s.uncaught ++ [e] }

/-- A click on the `complete-order` control: a fresh cancelable event is
dispatched to the control and its registered listener, if any, runs.  Without
the control there is nothing to click. -/
def dispatchClick (s : PageState) : PageState :=
  match s.completeOrderBtn with
  | none => s
  | some _ =>
    let s1 := { s with defaultPrevented := false }
    if s.listenerAttached then report (clickListener s1) else s1

/-- The pending timer with identifier `id` runs: it leaves the queue (it is
one-shot), the run is recorded, and its callback is executed. -/
def fireTimer (id : Nat) (s : PageState) : PageState :=
  match s.pending.find? (fun t => t.id = id) with
  | none => s
  | some _ =>
    report (timerCallback
      { s with
        pending := s.pending.filter (fun t => t.id ≠ id)
        firedLog := s.firedLog ++ [id] })

/-- The timers that are due once the clock reads `target`, earliest first,
ties in the order of their `setTimeout` calls. -/
def dueTimers (target : Nat) (s : PageState) : List Timer :=
  (s.pending.filter (fun t => t.due ≤ target)).insertionSort (fun a b => a.due ≤ b.due)

/-- The clock advances by `ms` milliseconds and every timer that became due runs. -/
def elapse (ms : Nat) (s : PageState) : PageState :=
  let s1 := (dueTimers (s.now + ms) s).foldl (fun acc t => fireTimer t.id acc) s
  { s1 with now := s.now + ms }

/-- The state of a freshly parsed document, before any script ran. -/
def freshPage (btn modal : Option Element) : PageState :=
  { completeOrderBtn := btn
    stkModal := modal
    listenerAttached := false
    defaultPrevented := false
    now := 0
    nextTimerId := 0
    pending := []
    firedLog := []
    uncaught := [] }

/-- The page once `DOMContentLoaded` has been handled. -/
def loadPage (btn modal : Option Element) : PageState :=
  report (domContentLoaded (freshPage btn modal))

/-- The `style.display` of the container, when the container exists. -/
def modalDisplay (s : PageState) : Option String := s.stkModal.map (fun m => m.display)

/-- The inner markup of the container, when the container exists. -/
def modalContent (s : PageState) : Option String := s.stkModal.map (fun m => m.innerHTML)

/-- The steps of the untimed view of the page: a click on the control, or one
pending timer running. -/
inductive Event where
  | click
  | timerFires (id : Nat)
deriving DecidableEq, Repr

/-- One step of the untimed view. -/
def step (s : PageState) : Event → PageState
  | .click => dispatchClick s
  | .timerFires id => fireTimer id s

/-- A sequence of steps, first to last. -/
def run (s : PageState) (tr : List Event) : PageState := tr.foldl step s

/-- The number of clicks in a sequence of steps. -/
def clicks (tr : List Event) : Nat := tr.count Event.click

/-- The states that follow `s0`: after any sequence of clicks, timer runs and
passages of time. -/
inductive Reachable (s0 : PageState) : PageState → Prop where
  | start : Reachable s0 s0
  | click {s : PageState} : Reachable s0 s → Reachable s0 (dispatchClick s)
  | fire {s : PageState} (id : Nat) : Reachable s0 s → Reachable s0 (fireTimer id s)
  | wait {s : PageState} (ms : Nat) : Reachable s0 s → Reachable s0 (elapse ms s)

/-- The identifiers of the timers that are pending. -/
def pendingIds (s : PageState) : List Nat := s.pending.map (fun t => t.id)

/-- A sample page: the checkout page with its button and its hidden dialog,
as loaded. -/
def samplePage : PageState :=
  loadPage (some ⟨"inline-block", "Complete Order"⟩) (some ⟨"none", "<p>Waiting for PIN</p>"⟩)

/-- A sample page without the button. -/
def sampleNoButton : PageState :=
  loadPage none (some ⟨"none", "<p>Waiting for PIN</p>"⟩)

/-- A sample page with the button and without the dialog. -/
def sampleNoModal : PageState :=
  loadPage (some ⟨"inline-block", "Complete Order"⟩) none

/-- The control, its listener and the container are in place, and every
pending timer was requested with the delay of the script. -/
def Ready (s : PageState) : Prop :=
  s.completeOrderBtn.isSome = true ∧ s.listenerAttached = true ∧ s.stkModal.isSome = true
    ∧ ∀ t ∈ s.pending, t.delay = 5000

/-- The timer queue is consistent: every identifier handed out so far belongs
either to a pending timer that has not run, or to a timer that ran exactly
once and is no longer pending; no other identifier is pending or recorded. -/
def TimersSound (s : PageState) : Prop :=
  (∀ i, i < s.nextTimerId →
      (i ∈ pendingIds s ∧ s.firedLog.count i = 0) ∨ (i ∉ pendingIds s ∧ s.firedLog.count i = 1))
    ∧ (∀ i ∈ pendingIds s, i < s.nextTimerId)
    ∧ (∀ i ∈ s.firedLog, i < s.nextTimerId)

/-- What holds of the page after any history: control, listener and container
in place, a consistent timer queue, the container shown as soon as one click
happened, and the success markup in place as soon as one timer ran. -/
def Settling (s : PageState) : Prop :=
  Ready s ∧ TimersSound s
    ∧ (0 < s.nextTimerId → modalDisplay s = some "block")
    ∧ (s.firedLog ≠ [] → modalContent s = some successMarkup)

/-- The clock advances in several passages, first to last. -/
def elapseAll (s : PageState) (waits : List Nat) : PageState :=
  waits.foldl (fun acc ms => elapse ms acc) s

/-! ## Basic facts about the handlers -/

theorem clickListener_of_modal {s : PageState} {m : Element} (hm : s.stkModal = some m) :
    clickListener s = .normal
      { s with
        defaultPrevented := true
        stkModal := some { m with display := "block" }
        pending := s.pending ++ [{ id := s.nextTimerId, delay := 5000, due := s.now + 5000 }]
        nextTimerId := s.nextTimerId + 1 } := by
  simp [clickListener, setTimeout, hm]

theorem clickListener_of_no_modal {s : PageState} (hm : s.stkModal = none) :
    clickListener s = .throw .typeError { s with defaultPrevented := true } := by
  simp [clickListener, hm]

theorem dispatchClick_of_ready {s : PageState} {b m : Element}
    (hb : s.completeOrderBtn = some b) (hl : s.listenerAttached = true)
    (hm : s.stkModal = some m) :
    dispatchClick s =
      { s with
        defaultPrevented := true
        stkModal := some { m with display := "block" }
        pending := s.pending ++ [{ id := s.nextTimerId, delay := 5000, due := s.now + 5000 }]
        nextTimerId := s.nextTimerId + 1 } := by
  simp [dispatchClick, hb, hl, clickListener, setTimeout, hm, report]

theorem fireTimer_of_absent {s : PageState} {id : Nat}
    (h : s.pending.find? (fun t => t.id = id) = none) : fireTimer id s = s := by
  simp [fireTimer, h]

theorem fireTimer_of_pending {s : PageState} {id : Nat} {t : Timer} {m : Element}
    (h : s.pending.find? (fun t => t.id = id) = some t) (hm : s.stkModal = some m) :
    fireTimer id s =
      { s with
        stkModal := some { m with innerHTML := successMarkup }
        pending := s.pending.filter (fun t => t.id ≠ id)
        firedLog := s.firedLog ++ [id] } := by
  simp [fireTimer, h, timerCallback, hm, report]

theorem modalContent_dispatchClick (s : PageState) :
    modalContent (dispatchClick s) = modalContent s := by
  unfold dispatchClick
  cases hb : s.completeOrderBtn with
  | none => rfl
  | some b =>
    cases hl : s.listenerAttached with
    | false => simp [modalContent]
    | true =>
      cases hm : s.stkModal with
      | none => simp [modalContent, clickListener, hm, report]
      | some m => simp [modalContent, clickListener, hm, report, setTimeout]

theorem modalDisplay_fireTimer (id : Nat) (s : PageState) :
    modalDisplay (fireTimer id s) = modalDisplay s := by
  unfold fireTimer
  cases hf : s.pending.find? (fun t => t.id = id) with
  | none => rfl
  | some t =>
    cases hm : s.stkModal with
    | none => simp [modalDisplay, timerCallback, hm, report]
    | some m => simp [modalDisplay, timerCallback, hm, report]

theorem modalDisplay_dispatchClick_block (s : PageState)
    (h : modalDisplay s = some "block") : modalDisplay (dispatchClick s) = some "block" := by
  unfold dispatchClick
  cases hb : s.completeOrderBtn with
  | none => simpa using h
  | some b =>
    cases hl : s.listenerAttached with
    | false => simpa [modalDisplay] using h
    | true =>
      cases hm : s.stkModal with
      | none => simp [modalDisplay, hm] at h
      | some m => simp [modalDisplay, clickListener, hm, report, setTimeout]

theorem modalContent_fireTimer_success (id : Nat) (s : PageState)
    (h : modalContent s = some successMarkup) :
    modalContent (fireTimer id s) = some successMarkup := by
  unfold fireTimer
  cases hf : s.pending.find? (fun t => t.id = id) with
  | none => simpa using h
  | some t =>
    cases hm : s.stkModal with
    | none => simp [modalContent, hm] at h
    | some m => simp [modalContent, timerCallback, hm, report]

theorem foldl_fireTimer_induct {P : PageState → Prop}
    (hP : ∀ id s, P s → P (fireTimer id s)) (l : List Timer) (s : PageState) (h : P s) :
    P (l.foldl (fun acc t => fireTimer t.id acc) s) := by
  induction l generalizing s with
  | nil => simpa using h
  | cons t tl ih => exact ih _ (hP t.id s h)

theorem elapse_induct {P : PageState → Prop}
    (hP : ∀ id s, P s → P (fireTimer id s))
    (hn : ∀ s n, P s → P { s with now := n }) (ms : Nat) (s : PageState) (h : P s) :
    P (elapse ms s) := by
  unfold elapse
  exact hn _ _ (foldl_fireTimer_induct hP _ s h)

theorem Reachable.induct_inv {P : PageState → Prop} {s0 s : PageState}
    (hr : Reachable s0 s) (h0 : P s0)
    (hc : ∀ s, P s → P (dispatchClick s))
    (hf : ∀ id s, P s → P (fireTimer id s))
    (hn : ∀ s n, P s → P { s with now := n }) : P s := by
  induction hr with
  | start => exact h0
  | click _ ih => exact hc _ ih
  | fire id _ ih => exact hf id _ ih
  | wait ms _ ih => exact elapse_induct hf hn ms _ ih

theorem run_induct {P : PageState → Prop}
    (hc : ∀ s, P s → P (dispatchClick s))
    (hf : ∀ id s, P s → P (fireTimer id s)) (tr : List Event) (s : PageState) (h : P s) :
    P (run s tr) := by
  induction tr generalizing s with
  | nil => simpa [run] using h
  | cons e tl ih =>
    cases e with
    | click => exact ih _ (hc s h)
    | timerFires id => exact ih _ (hf id s h)

theorem elapse_of_none_due {s : PageState} {ms : Nat}
    (h : ∀ t ∈ s.pending, s.now + ms < t.due) :
    elapse ms s = { s with now := s.now + ms } := by
  have hnil : dueTimers (s.now + ms) s = [] := by
    unfold dueTimers
    have : s.pending.filter (fun t => t.due ≤ s.now + ms) = [] := by
      rw [List.filter_eq_nil_iff]
      intro t ht
      have := h t ht
      simp only [decide_eq_true_eq]
      omega
    rw [this]
    rfl
  simp [elapse, hnil]

theorem elapseAll_of_none_due (waits : List Nat) (s : PageState)
    (h : ∀ t ∈ s.pending, s.now + waits.sum < t.due) :
    elapseAll s waits = { s with now := s.now + waits.sum } := by
  induction waits generalizing s with
  | nil => simp [elapseAll]
  | cons w ws ih =>
    have h1 : ∀ t ∈ s.pending, s.now + w < t.due := by
      intro t ht
      have := h t ht
      simp only [List.sum_cons] at this
      omega
    have h2 : elapseAll s (w :: ws) = elapseAll (elapse w s) ws := rfl
    rw [h2, elapse_of_none_due h1, ih]
    · simp [Nat.add_assoc]
    · intro t ht
      have := h t ht
      simp only [List.sum_cons] at this
      simp only
      omega

theorem find_pending_of_mem {s : PageState} {id : Nat}
    (h : ∃ t ∈ s.pending, t.id = id) :
    ∃ t, s.pending.find? (fun t => t.id = id) = some t := by
  cases hf : s.pending.find? (fun t => t.id = id) with
  | some t => exact ⟨t, rfl⟩
  | none =>
    rw [List.find?_eq_none] at hf
    obtain ⟨t, ht, hid⟩ := h
    exact absurd (by simpa using hid) (hf t ht)

theorem modalContent_fireTimer_of_pending {s : PageState} {id : Nat}
    (hm : s.stkModal.isSome = true) (h : ∃ t ∈ s.pending, t.id = id) :
    modalContent (fireTimer id s) = some successMarkup := by
  obtain ⟨t, ht⟩ := find_pending_of_mem h
  cases hs : s.stkModal with
  | none => simp [hs] at hm
  | some m => simp [fireTimer_of_pending ht hs, modalContent]

theorem modalContent_dispatchClick_success (s : PageState)
    (h : modalContent s = some successMarkup) :
    modalContent (dispatchClick s) = some successMarkup := by
  rw [modalContent_dispatchClick]; exact h

theorem modalContent_foldl_success (l : List Timer) (s : PageState)
    (h : modalContent s = some successMarkup) :
    modalContent (l.foldl (fun acc t => fireTimer t.id acc) s) = some successMarkup :=
  foldl_fireTimer_induct (P := fun s => modalContent s = some successMarkup)
    (fun id s hs => modalContent_fireTimer_success id s hs) l s h

theorem modalContent_elapse_of_due {s : PageState} {ms : Nat} {t : Timer}
    (hm : s.stkModal.isSome = true) (ht : t ∈ s.pending) (hdue : t.due ≤ s.now + ms) :
    modalContent (elapse ms s) = some successMarkup := by
  have hmem : t ∈ dueTimers (s.now + ms) s := by
    unfold dueTimers
    rw [List.mem_insertionSort]
    simp [ht, hdue]
  have hsub : ∀ u ∈ dueTimers (s.now + ms) s, u ∈ s.pending := by
    intro u hu
    unfold dueTimers at hu
    rw [List.mem_insertionSort] at hu
    exact (List.mem_filter.mp hu).1
  show modalContent ((dueTimers (s.now + ms) s).foldl (fun acc t => fireTimer t.id acc) s)
    = some successMarkup
  cases hd : dueTimers (s.now + ms) s with
  | nil => rw [hd] at hmem; cases hmem
  | cons u us =>
    have hu : u ∈ s.pending := hsub u (by rw [hd]; exact List.mem_cons_self _ _)
    rw [List.foldl_cons]
    exact modalContent_foldl_success us _
      (modalContent_fireTimer_of_pending hm ⟨u, hu, rfl⟩)

/-! ## The timer queue -/

theorem dispatchClick_timers (s : PageState) :
    ((dispatchClick s).pending = s.pending ∧ (dispatchClick s).firedLog = s.firedLog
      ∧ (dispatchClick s).nextTimerId = s.nextTimerId)
    ∨ ((dispatchClick s).pending
          = s.pending ++ [{ id := s.nextTimerId, delay := 5000, due := s.now + 5000 }]
      ∧ (dispatchClick s).firedLog = s.firedLog
      ∧ (dispatchClick s).nextTimerId = s.nextTimerId + 1) := by
  unfold dispatchClick
  cases hb : s.completeOrderBtn with
  | none => simp
  | some b =>
    cases hl : s.listenerAttached with
    | false => simp
    | true =>
      cases hm : s.stkModal with
      | none => simp [clickListener, hm, report]
      | some m => simp [clickListener, hm, report, setTimeout]

theorem fireTimer_timers (id : Nat) (s : PageState) :
    (fireTimer id s = s ∧ id ∉ pendingIds s)
    ∨ (id ∈ pendingIds s
      ∧ (fireTimer id s).pending = s.pending.filter (fun t => t.id ≠ id)
      ∧ (fireTimer id s).firedLog = s.firedLog ++ [id]
      ∧ (fireTimer id s).nextTimerId = s.nextTimerId) := by
  unfold fireTimer
  cases hf : s.pending.find? (fun t => t.id = id) with
  | none =>
    left
    refine ⟨rfl, ?_⟩
    rw [List.find?_eq_none] at hf
    simp only [pendingIds, List.mem_map, not_exists, not_and]
    intro t ht hid
    exact hf t ht (by simpa using hid)
  | some t =>
    right
    have hmem : id ∈ pendingIds s := by
      have h1 := List.find?_some hf
      have h2 := List.mem_of_find?_eq_some hf
      simp only [decide_eq_true_eq] at h1
      exact List.mem_map.mpr ⟨t, h2, h1⟩
    cases hm : s.stkModal with
    | none => simp [timerCallback, hm, report, hmem]
    | some m => simp [timerCallback, hm, report, hmem]

theorem mem_pendingIds_filter (s : PageState) (id i : Nat) :
    i ∈ (s.pending.filter (fun t => t.id ≠ id)).map (fun t => t.id)
      ↔ i ∈ pendingIds s ∧ i ≠ id := by
  simp only [pendingIds, List.mem_map, List.mem_filter, decide_eq_true_eq]
  constructor
  · rintro ⟨t, ⟨ht, hne⟩, rfl⟩
    exact ⟨⟨t, ht, rfl⟩, hne⟩
  · rintro ⟨⟨t, ht, rfl⟩, hne⟩
    exact ⟨t, ⟨ht, hne⟩, rfl⟩

theorem TimersSound_dispatchClick (s : PageState) (h : TimersSound s) :
    TimersSound (dispatchClick s) := by
  obtain ⟨h1, h2, h3⟩ := h
  rcases dispatchClick_timers s with ⟨hp, hf, hn⟩ | ⟨hp, hf, hn⟩
  · simp only [TimersSound, pendingIds, hp, hf, hn]
    exact ⟨h1, h2, h3⟩
  · have hids : pendingIds (dispatchClick s) = pendingIds s ++ [s.nextTimerId] := by
      simp [pendingIds, hp]
    refine ⟨?_, ?_, ?_⟩
    · intro i hi
      rw [hn] at hi
      rw [hids, hf]
      by_cases hlt : i < s.nextTimerId
      · rcases h1 i hlt with ⟨ha, hb⟩ | ⟨ha, hb⟩
        · exact Or.inl ⟨by simp [ha], hb⟩
        · refine Or.inr ⟨?_, hb⟩
          simp only [List.mem_append, List.mem_singleton, not_or]
          exact ⟨ha, by omega⟩
      · have hi2 : i = s.nextTimerId := by omega
        subst hi2
        refine Or.inl ⟨by simp, ?_⟩
        rw [List.count_eq_zero]
        intro hmem
        exact absurd (h3 _ hmem) (Nat.lt_irrefl _)
    · intro i hi
      rw [hids] at hi
      rw [hn]
      simp only [List.mem_append, List.mem_singleton] at hi
      rcases hi with hi | hi
      · exact Nat.lt_succ_of_lt (h2 i hi)
      · omega
    · intro i hi
      rw [hf] at hi
      rw [hn]
      exact Nat.lt_succ_of_lt (h3 i hi)

theorem TimersSound_fireTimer (id : Nat) (s : PageState) (h : TimersSound s) :
    TimersSound (fireTimer id s) := by
  rcases fireTimer_timers id s with ⟨he, _⟩ | ⟨hid, hp, hf, hn⟩
  · rw [he]; exact h
  · obtain ⟨h1, h2, h3⟩ := h
    have hmem : ∀ i, i ∈ pendingIds (fireTimer id s) ↔ i ∈ pendingIds s ∧ i ≠ id := by
      intro i
      have := mem_pendingIds_filter s id i
      simpa [pendingIds, hp] using this
    refine ⟨?_, ?_, ?_⟩
    · intro i hi
      rw [hn] at hi
      rw [hmem, hf, List.count_append]
      by_cases hii : i = id
      · subst hii
        rcases h1 i hi with ⟨_, hb⟩ | ⟨ha, _⟩
        · exact Or.inr ⟨by simp, by simp [hb]⟩
        · exact absurd hid ha
      · have hc : List.count i [id] = 0 := by
          rw [List.count_eq_zero]
          simpa using hii
        rcases h1 i hi with ⟨ha, hb⟩ | ⟨ha, hb⟩
        · exact Or.inl ⟨⟨ha, hii⟩, by omega⟩
        · exact Or.inr ⟨fun hx => ha hx.1, by omega⟩
    · intro i hi
      rw [hn]
      exact h2 i ((hmem i).mp hi).1
    · intro i hi
      rw [hf] at hi
      rw [hn]
      simp only [List.mem_append, List.mem_singleton] at hi
      rcases hi with hi | hi
      · exact h3 i hi
      · subst hi; exact h2 i hid

theorem TimersSound_now (s : PageState) (n : Nat) (h : TimersSound s) :
    TimersSound { s with now := n } := h

theorem Ready_dispatchClick (s : PageState) (h : Ready s) : Ready (dispatchClick s) := by
  obtain ⟨hb, hl, hm, hd⟩ := h
  cases hbb : s.completeOrderBtn with
  | none => simp [hbb] at hb
  | some b =>
    cases hmm : s.stkModal with
    | none => simp [hmm] at hm
    | some m =>
      rw [dispatchClick_of_ready hbb hl hmm]
      refine ⟨by simp [hbb], hl, by simp, ?_⟩
      intro t ht
      simp only [List.mem_append, List.mem_singleton] at ht
      rcases ht with ht | ht
      · exact hd t ht
      · rw [ht]

theorem Ready_fireTimer (id : Nat) (s : PageState) (h : Ready s) : Ready (fireTimer id s) := by
  obtain ⟨hb, hl, hm, hd⟩ := h
  cases hf : s.pending.find? (fun t => t.id = id) with
  | none => rw [fireTimer_of_absent hf]; exact ⟨hb, hl, hm, hd⟩
  | some t =>
    cases hmm : s.stkModal with
    | none => simp [hmm] at hm
    | some m =>
      rw [fireTimer_of_pending hf hmm]
      refine ⟨hb, hl, by simp, ?_⟩
      intro u hu
      exact hd u (List.mem_filter.mp hu).1

theorem Ready_now (s : PageState) (n : Nat) (h : Ready s) : Ready { s with now := n } := h

theorem Ready_loadPage (b m : Element) : Ready (loadPage (some b) (some m)) := by
  simp [Ready, loadPage, freshPage, domContentLoaded, report]

theorem TimersSound_loadPage (btn modal : Option Element) :
    TimersSound (loadPage btn modal) := by
  cases btn <;> simp [TimersSound, pendingIds, loadPage, freshPage, domContentLoaded, report]

theorem twoClicks_eq (b m : Element) :
    dispatchClick (dispatchClick (loadPage (some b) (some m))) =
      { completeOrderBtn := some b
        stkModal := some { display := "block", innerHTML := m.innerHTML }
        listenerAttached := true
        defaultPrevented := true
        now := 0
        nextTimerId := 2
        pending := [⟨0, 5000, 5000⟩, ⟨1, 5000, 5000⟩]
        firedLog := []
        uncaught := [] } := by
  simp [loadPage, freshPage, domContentLoaded, report, dispatchClick, clickListener, setTimeout]

theorem twoClicks_elapse (b m : Element) (ms : Nat) (h : 5000 ≤ ms) :
    elapse ms (dispatchClick (dispatchClick (loadPage (some b) (some m)))) =
      { completeOrderBtn := some b
        stkModal := some { display := "block", innerHTML := successMarkup }
        listenerAttached := true
        defaultPrevented := true
        now := ms
        nextTimerId := 2
        pending := []
        firedLog := [0, 1]
        uncaught := [] } := by
  rw [twoClicks_eq]
  simp [elapse, dueTimers, h, List.insertionSort, List.orderedInsert, fireTimer, timerCallback,
    report, List.filter]

theorem nextTimerId_le_dispatchClick (s : PageState) :
    s.nextTimerId ≤ (dispatchClick s).nextTimerId := by
  rcases dispatchClick_timers s with ⟨_, _, hn⟩ | ⟨_, _, hn⟩ <;> omega

theorem nextTimerId_fireTimer (id : Nat) (s : PageState) :
    (fireTimer id s).nextTimerId = s.nextTimerId := by
  rcases fireTimer_timers id s with ⟨he, _⟩ | ⟨_, _, _, hn⟩
  · rw [he]
  · exact hn

theorem Settling_loadPage (b m : Element) : Settling (loadPage (some b) (some m)) := by
  refine ⟨Ready_loadPage b m, TimersSound_loadPage _ _, ?_, ?_⟩
  · simp [loadPage, freshPage, domContentLoaded, report]
  · simp [loadPage, freshPage, domContentLoaded, report]

theorem Settling_dispatchClick (s : PageState) (h : Settling s) : Settling (dispatchClick s) := by
  obtain ⟨hr, ht, _, hc⟩ := h
  refine ⟨Ready_dispatchClick s hr, TimersSound_dispatchClick s ht, ?_, ?_⟩
  · intro _
    obtain ⟨hb, hl, hm, _⟩ := hr
    cases hbb : s.completeOrderBtn with
    | none => simp [hbb] at hb
    | some b =>
      cases hmm : s.stkModal with
      | none => simp [hmm] at hm
      | some m => simp [dispatchClick_of_ready hbb hl hmm, modalDisplay]
  · intro hne
    rw [modalContent_dispatchClick]
    have hf : (dispatchClick s).firedLog = s.firedLog := by
      rcases dispatchClick_timers s with ⟨_, hf, _⟩ | ⟨_, hf, _⟩ <;> exact hf
    exact hc (by rwa [hf] at hne)

theorem Settling_fireTimer (id : Nat) (s : PageState) (h : Settling s) :
    Settling (fireTimer id s) := by
  obtain ⟨hr, ht, hd, hc⟩ := h
  refine ⟨Ready_fireTimer id s hr, TimersSound_fireTimer id s ht, ?_, ?_⟩
  · intro hpos
    rw [modalDisplay_fireTimer]
    rw [nextTimerId_fireTimer] at hpos
    exact hd hpos
  · intro hne
    rcases fireTimer_timers id s with ⟨he, _⟩ | ⟨hid, _, _, _⟩
    · rw [he] at hne ⊢
      exact hc hne
    · obtain ⟨t, ht1, ht2⟩ := List.mem_map.mp hid
      exact modalContent_fireTimer_of_pending hr.2.2.1 ⟨t, ht1, ht2⟩

theorem Settling_now (s : PageState) (n : Nat) (h : Settling s) : Settling { s with now := n } := h

theorem run_nextTimerId (tr : List Event) (s : PageState) (h : Ready s) :
    (run s tr).nextTimerId = s.nextTimerId + clicks tr := by
  induction tr generalizing s with
  | nil => simp [run, clicks]
  | cons e tl ih =>
    cases e with
    | click =>
      have h2 : run s (Event.click :: tl) = run (dispatchClick s) tl := rfl
      rw [h2, ih _ (Ready_dispatchClick s h)]
      obtain ⟨hb, hl, hm, _⟩ := h
      cases hbb : s.completeOrderBtn with
      | none => simp [hbb] at hb
      | some b =>
        cases hmm : s.stkModal with
        | none => simp [hmm] at hm
        | some m =>
          simp only [dispatchClick_of_ready hbb hl hmm, clicks, List.count_cons_self]
          omega
    | timerFires id =>
      have h2 : run s (Event.timerFires id :: tl) = run (fireTimer id s) tl := rfl
      rw [h2, ih _ (Ready_fireTimer id s h), nextTimerId_fireTimer]
      simp [clicks, List.count_cons]

theorem Settling_done (s : PageState) (h : Settling s) (hn : 1 ≤ s.nextTimerId)
    (hdone : s.pending = []) :
    s.stkModal = some { display := "block", innerHTML := successMarkup }
    ∧ s.firedLog.Perm (List.range s.nextTimerId) := by
  obtain ⟨_, ⟨h1, _, h3⟩, hd, hc⟩ := h
  have hcount : ∀ i, i < s.nextTimerId → s.firedLog.count i = 1 := by
    intro i hi
    rcases h1 i hi with ⟨ha, _⟩ | ⟨_, hb⟩
    · simp [pendingIds, hdone] at ha
    · exact hb
  have hne : s.firedLog ≠ [] := by
    intro he
    have := hcount 0 (by omega)
    simp [he] at this
  have hdisp := hd (by omega)
  have hcont := hc hne
  constructor
  · cases hm : s.stkModal with
    | none => simp [modalDisplay, hm] at hdisp
    | some m =>
      cases m with
      | mk d c =>
        simp only [modalDisplay, modalContent, hm, Option.map_some', Option.some.injEq]
          at hdisp hcont
        rw [hdisp, hcont]
  · rw [List.perm_iff_count]
    intro a
    by_cases ha : a < s.nextTimerId
    · rw [hcount a ha]
      exact (List.count_eq_one_of_mem (List.nodup_range _) (List.mem_range.mpr ha)).symm
    · have h4 : a ∉ s.firedLog := fun hmem => ha (h3 a hmem)
      have h5 : a ∉ List.range s.nextTimerId := fun hmem => ha (List.mem_range.mp hmem)
      rw [List.count_eq_zero.mpr h4, List.count_eq_zero.mpr h5]

theorem timerCallback_of_success (s : PageState) (h : modalContent s = some successMarkup) :
    timerCallback s = .normal s := by
  cases s with
  | mk btn modal la dp now nid pend fl unc =>
    cases modal with
    | none => simp [modalContent] at h
    | some m =>
      cases m with
      | mk d c =>
        simp only [modalContent, Option.map_some', Option.some.injEq] at h
        subst h
        rfl

theorem stkModal_fireTimer_of_success (id : Nat) (s : PageState)
    (h : modalContent s = some successMarkup) : (fireTimer id s).stkModal = s.stkModal := by
  cases hf : s.pending.find? (fun t => t.id = id) with
  | none => rw [fireTimer_of_absent hf]
  | some t =>
    cases hm : s.stkModal with
    | none => simp [modalContent, hm] at h
    | some m =>
      rw [fireTimer_of_pending hf hm]
      cases m with
      | mk d c =>
        simp only [modalContent, hm, Option.map_some', Option.some.injEq] at h
        subst h
        rfl

/-! ## The claims -/

/-- C1: when the control and the container both exist, the click handler ends
normally in a state whose container display is "block"; this holds in the
click step itself: no timer has run (the record of runs is unchanged) and the
timer this click scheduled is the last entry of the pending list.  The same
holds for the dispatched click once the listener is registered. -/
theorem C1_click_shows_modal_at_once (s : PageState) (b m : Element)
    (hb : s.completeOrderBtn = some b) (hm : s.stkModal = some m) :
    (clickListener s).error = none
    ∧ modalDisplay (clickListener s).state = some "block"
    ∧ (clickListener s).state.firedLog = s.firedLog
    ∧ (clickListener s).state.pending
        = s.pending ++ [{ id := s.nextTimerId, delay := 5000, due := s.now + 5000 }]
    ∧ (s.listenerAttached = true →
        modalDisplay (dispatchClick s) = some "block"
        ∧ (dispatchClick s).firedLog = s.firedLog
        ∧ (dispatchClick s).pending
            = s.pending ++ [{ id := s.nextTimerId, delay := 5000, due := s.now + 5000 }]) := by
  refine ⟨?_, ?_, ?_, ?_, ?_⟩
  · simp [clickListener_of_modal hm, Completion.error]
  · simp [clickListener_of_modal hm, Completion.state, modalDisplay]
  · simp [clickListener_of_modal hm, Completion.state]
  · simp [clickListener_of_modal hm, Completion.state]
  · intro hl
    simp [dispatchClick_of_ready hb hl hm, modalDisplay]

theorem C1_click_shows_modal_at_once_witness :
    samplePage.completeOrderBtn = some ⟨"inline-block", "Complete Order"⟩
    ∧ samplePage.stkModal = some ⟨"none", "<p>Waiting for PIN</p>"⟩
    ∧ (clickListener samplePage).error = none
    ∧ modalDisplay (clickListener samplePage).state = some "block"
    ∧ (clickListener samplePage).state.firedLog = samplePage.firedLog
    ∧ (clickListener samplePage).state.pending
        = samplePage.pending
          ++ [{ id := samplePage.nextTimerId, delay := 5000, due := samplePage.now + 5000 }]
    ∧ (samplePage.listenerAttached = true →
        modalDisplay (dispatchClick samplePage) = some "block"
        ∧ (dispatchClick samplePage).firedLog = samplePage.firedLog
        ∧ (dispatchClick samplePage).pending
            = samplePage.pending
              ++ [{ id := samplePage.nextTimerId, delay := 5000, due := samplePage.now + 5000 }]) :=
  ⟨rfl, rfl, C1_click_shows_modal_at_once samplePage _ _ rfl rfl⟩

/-- C3: from the loaded page whose container holds the placeholder `P`, one
click followed by passages of time that add up to less than 5000 ms leaves
the content of the container equal to `P` and runs no timer; and on every
state the click step leaves the content of the container as it was. -/
theorem C3_no_overwrite_before_delay (btn : Option Element) (d P : String) (waits : List Nat)
    (hlt : waits.sum < 5000) :
    modalContent (elapseAll (dispatchClick (loadPage btn (some ⟨d, P⟩))) waits) = some P
    ∧ (elapseAll (dispatchClick (loadPage btn (some ⟨d, P⟩))) waits).firedLog = []
    ∧ ∀ s : PageState, modalContent (dispatchClick s) = modalContent s := by
  have key : ∀ t ∈ (dispatchClick (loadPage btn (some ⟨d, P⟩))).pending,
      (dispatchClick (loadPage btn (some ⟨d, P⟩))).now + waits.sum < t.due := by
    cases btn with
    | none => simp [loadPage, freshPage, domContentLoaded, report, dispatchClick]
    | some b =>
      simp [loadPage, freshPage, domContentLoaded, report, dispatchClick, clickListener,
        setTimeout]
      exact hlt
  refine ⟨?_, ?_, modalContent_dispatchClick⟩
  · rw [elapseAll_of_none_due waits _ key]
    show modalContent (dispatchClick _) = _
    rw [modalContent_dispatchClick]
    cases btn <;> simp [loadPage, freshPage, domContentLoaded, report, modalContent]
  · rw [elapseAll_of_none_due waits _ key]
    cases btn <;>
      simp [loadPage, freshPage, domContentLoaded, report, dispatchClick, clickListener,
        setTimeout]

theorem C3_no_overwrite_before_delay_witness :
    [2000, 2999].sum < 5000
    ∧ modalContent (elapseAll (dispatchClick
        (loadPage (some ⟨"inline-block", "Complete Order"⟩) (some ⟨"none", "<p>Waiting for PIN</p>"⟩)))
        [2000, 2999]) = some "<p>Waiting for PIN</p>"
    ∧ (elapseAll (dispatchClick
        (loadPage (some ⟨"inline-block", "Complete Order"⟩) (some ⟨"none", "<p>Waiting for PIN</p>"⟩)))
        [2000, 2999]).firedLog = [] :=
  ⟨by decide, (C3_no_overwrite_before_delay _ _ _ [2000, 2999] (by decide)).1,
    (C3_no_overwrite_before_delay _ _ _ [2000, 2999] (by decide)).2.1⟩

/-- C4: on every state the click handler ends (normally or by throwing) in a
state whose default-prevented flag is set; when the container is missing it
throws only after having set the flag; and a click dispatched to a present
control with the listener registered leaves the flag of its event set. -/
theorem C4_default_always_prevented (s : PageState) :
    (clickListener s).state.defaultPrevented = true
    ∧ (s.stkModal = none →
        clickListener s = .throw .typeError { s with defaultPrevented := true })
    ∧ (s.completeOrderBtn.isSome = true → s.listenerAttached = true →
        (dispatchClick s).defaultPrevented = true) := by
  refine ⟨?_, fun hm => clickListener_of_no_modal hm, ?_⟩
  · cases hm : s.stkModal with
    | none => simp [clickListener_of_no_modal hm, Completion.state]
    | some m => simp [clickListener_of_modal hm, Completion.state]
  · intro hb hl
    cases hbb : s.completeOrderBtn with
    | none => simp [hbb] at hb
    | some b =>
      cases hm : s.stkModal with
      | none => simp [dispatchClick, hbb, hl, clickListener, hm, report]
      | some m => simp [dispatchClick_of_ready hbb hl hm]

theorem C4_default_always_prevented_witness :
    (clickListener sampleNoModal).state.defaultPrevented = true
    ∧ (sampleNoModal.stkModal = none →
        clickListener sampleNoModal
          = .throw .typeError { sampleNoModal with defaultPrevented := true })
    ∧ (sampleNoModal.completeOrderBtn.isSome = true → sampleNoModal.listenerAttached = true →
        (dispatchClick sampleNoModal).defaultPrevented = true)
    ∧ sampleNoModal.stkModal = none
    ∧ sampleNoModal.completeOrderBtn.isSome = true
    ∧ sampleNoModal.listenerAttached = true :=
  ⟨(C4_default_always_prevented sampleNoModal).1, (C4_default_always_prevented sampleNoModal).2.1,
    (C4_default_always_prevented sampleNoModal).2.2, rfl, rfl, rfl⟩

/-- C5: when no element with id "complete-order" exists, the initializer ends
normally and returns the very state it was given (so no listener is
registered, no timer is scheduled, the container is untouched), whether or
not the container exists; the page loaded from such a document has no
listener, no pending timer, no reported error, its container as parsed, and
a click changes nothing. -/
theorem C5_absent_control_is_noop (s : PageState) (hb : s.completeOrderBtn = none) :
    domContentLoaded s = .normal s
    ∧ (∀ modal : Option Element,
        (loadPage none modal).listenerAttached = false
        ∧ (loadPage none modal).pending = []
        ∧ (loadPage none modal).uncaught = []
        ∧ (loadPage none modal).stkModal = modal
        ∧ dispatchClick (loadPage none modal) = loadPage none modal) := by
  refine ⟨by simp [domContentLoaded, hb], ?_⟩
  intro modal
  simp [loadPage, freshPage, domContentLoaded, report, dispatchClick]

theorem C5_absent_control_is_noop_witness :
    sampleNoButton.completeOrderBtn = none
    ∧ domContentLoaded sampleNoButton = .normal sampleNoButton
    ∧ sampleNoButton.listenerAttached = false
    ∧ sampleNoButton.pending = []
    ∧ dispatchClick sampleNoButton = sampleNoButton :=
  ⟨rfl, (C5_absent_control_is_noop sampleNoButton rfl).1,
    ((C5_absent_control_is_noop sampleNoButton rfl).2 _).1,
    ((C5_absent_control_is_noop sampleNoButton rfl).2 _).2.1,
    ((C5_absent_control_is_noop sampleNoButton rfl).2 _).2.2.2.2⟩

/-- C2: whenever a pending timer runs on a page that has the container, the
content of the container becomes exactly the success markup of the source,
whatever the content and the rest of the state were; in particular this holds
for the timer scheduled by a click (control and container present, listener
registered), both when that timer is run on its own and when 5000 ms or more
pass after the click.  The markup contains "Order ID: #SS1024" and the anchor
whose href is "index.html". -/
theorem C2_fired_timer_writes_success_markup (s : PageState) (b m : Element)
    (hb : s.completeOrderBtn = some b) (hm : s.stkModal = some m)
    (hl : s.listenerAttached = true) :
    modalContent (fireTimer s.nextTimerId (dispatchClick s)) = some successMarkup
    ∧ (∀ ms, 5000 ≤ ms → modalContent (elapse ms (dispatchClick s)) = some successMarkup)
    ∧ (∀ (q : PageState) (id : Nat), q.stkModal.isSome = true →
        (∃ t ∈ q.pending, t.id = id) → modalContent (fireTimer id q) = some successMarkup)
    ∧ (∃ pre post, successMarkup = pre ++ "Order ID: #SS1024" ++ post)
    ∧ (∃ pre post,
        successMarkup = pre ++ "<a href=\"index.html\" class=\"btn\">Back to Store</a>" ++ post) := by
  have hmem : (⟨s.nextTimerId, 5000, s.now + 5000⟩ : Timer) ∈ (dispatchClick s).pending := by
    simp [dispatchClick_of_ready hb hl hm]
  have hsome : (dispatchClick s).stkModal.isSome = true := by
    simp [dispatchClick_of_ready hb hl hm]
  have hnow : (dispatchClick s).now = s.now := by
    simp [dispatchClick_of_ready hb hl hm]
  refine ⟨?_, ?_, ?_, ?_, ?_⟩
  · exact modalContent_fireTimer_of_pending hsome ⟨_, hmem, rfl⟩
  · intro ms hms
    refine modalContent_elapse_of_due hsome hmem ?_
    rw [hnow]
    simp only
    omega
  · intro q id hq hp
    exact modalContent_fireTimer_of_pending hq hp
  · set_option maxRecDepth 100000 in
    exact ⟨"\n                    <div class=\"modal-content\">\n                        <h3 style=\"color: #00b894;\">Payment Successful!</h3>\n                        <p>Your order has been confirmed.</p>\n                        <p>",
      "</p>\n                        <a href=\"index.html\" class=\"btn\">Back to Store</a>\n                    </div>\n                ",
      rfl⟩
  · set_option maxRecDepth 100000 in
    exact ⟨"\n                    <div class=\"modal-content\">\n                        <h3 style=\"color: #00b894;\">Payment Successful!</h3>\n                        <p>Your order has been confirmed.</p>\n                        <p>Order ID: #SS1024</p>\n                        ",
      "\n                    </div>\n                ", rfl⟩

theorem C2_fired_timer_writes_success_markup_witness :
    samplePage.completeOrderBtn = some ⟨"inline-block", "Complete Order"⟩
    ∧ samplePage.stkModal = some ⟨"none", "<p>Waiting for PIN</p>"⟩
    ∧ samplePage.listenerAttached = true
    ∧ modalContent (fireTimer samplePage.nextTimerId (dispatchClick samplePage))
        = some successMarkup
    ∧ modalContent (elapse 5000 (dispatchClick samplePage)) = some successMarkup :=
  ⟨rfl, rfl, rfl,
    (C2_fired_timer_writes_success_markup samplePage _ _ rfl rfl rfl).1,
    (C2_fired_timer_writes_success_markup samplePage _ _ rfl rfl rfl).2.1 5000 (Nat.le_refl _)⟩

/-- C8: there is no way back.  On every state (so on every reachable one), if
the display of the container is "block" then it is "block" after a click,
after a timer run, after every sequence of such steps, and in every state
that follows (passages of time included); and if the content of the container
is the success markup then it is the success markup after each of these. -/
theorem C8_no_transition_back (s : PageState) :
    (modalDisplay s = some "block" →
      (∀ e : Event, modalDisplay (step s e) = some "block")
      ∧ (∀ tr : List Event, modalDisplay (run s tr) = some "block")
      ∧ (∀ q : PageState, Reachable s q → modalDisplay q = some "block"))
    ∧ (modalContent s = some successMarkup →
      (∀ e : Event, modalContent (step s e) = some successMarkup)
      ∧ (∀ tr : List Event, modalContent (run s tr) = some successMarkup)
      ∧ (∀ q : PageState, Reachable s q → modalContent q = some successMarkup)) := by
  have hdc : ∀ q, modalDisplay q = some "block" → modalDisplay (dispatchClick q) = some "block" :=
    modalDisplay_dispatchClick_block
  have hdf : ∀ id q, modalDisplay q = some "block" → modalDisplay (fireTimer id q) = some "block" :=
    fun id q h => by rw [modalDisplay_fireTimer]; exact h
  refine ⟨fun h => ⟨?_, ?_, ?_⟩, fun h => ⟨?_, ?_, ?_⟩⟩
  · intro e
    cases e with
    | click => exact hdc s h
    | timerFires id => exact hdf id s h
  · intro tr
    exact run_induct (P := fun q => modalDisplay q = some "block") hdc hdf tr s h
  · intro q hq
    exact hq.induct_inv (P := fun q => modalDisplay q = some "block") h hdc hdf
      (fun _ _ hq => hq)
  · intro e
    cases e with
    | click => exact modalContent_dispatchClick_success s h
    | timerFires id => exact modalContent_fireTimer_success id s h
  · intro tr
    exact run_induct (P := fun q => modalContent q = some successMarkup)
      modalContent_dispatchClick_success modalContent_fireTimer_success tr s h
  · intro q hq
    exact hq.induct_inv (P := fun q => modalContent q = some successMarkup) h
      modalContent_dispatchClick_success modalContent_fireTimer_success (fun _ _ hq => hq)

theorem C8_no_transition_back_witness :
    modalDisplay (dispatchClick samplePage) = some "block"
    ∧ modalDisplay (elapse 7000 (fireTimer 0 (dispatchClick (dispatchClick samplePage))))
        = some "block"
    ∧ modalContent (fireTimer 0 (dispatchClick samplePage)) = some successMarkup
    ∧ modalContent (elapse 7000 (dispatchClick (fireTimer 0 (dispatchClick samplePage))))
        = some successMarkup :=
  ⟨rfl,
    ((C8_no_transition_back (dispatchClick samplePage)).1 rfl).2.2 _
      (Reachable.wait 7000 (Reachable.fire 0 (Reachable.click Reachable.start))),
    rfl,
    ((C8_no_transition_back (fireTimer 0 (dispatchClick samplePage))).2 rfl).2.2 _
      (Reachable.wait 7000 (Reachable.click Reachable.start))⟩

/-- C10: the two transitions write disjoint parts of the container.  On every
state the click step leaves the content of the container, the clock, the
record of timer runs, the control and the listener registration as they
were; on every state the timer step leaves the display of the container, the
control, the listener registration, the event flag, the clock and the
identifier counter as they were.  With control, listener and container
present the click step is exactly: flag set, display "block", one timer
appended (and the identifier counter advanced); with the timer pending and
the container present the timer step is exactly: content overwritten, the
timer removed from the pending list, the run recorded. -/
theorem C10_disjoint_writes (s : PageState) (id : Nat) :
    modalContent (dispatchClick s) = modalContent s
    ∧ modalDisplay (fireTimer id s) = modalDisplay s
    ∧ ((dispatchClick s).now = s.now
        ∧ (dispatchClick s).firedLog = s.firedLog
        ∧ (dispatchClick s).completeOrderBtn = s.completeOrderBtn
        ∧ (dispatchClick s).listenerAttached = s.listenerAttached)
    ∧ ((fireTimer id s).completeOrderBtn = s.completeOrderBtn
        ∧ (fireTimer id s).listenerAttached = s.listenerAttached
        ∧ (fireTimer id s).defaultPrevented = s.defaultPrevented
        ∧ (fireTimer id s).now = s.now
        ∧ (fireTimer id s).nextTimerId = s.nextTimerId)
    ∧ (∀ b m : Element, s.completeOrderBtn = some b → s.listenerAttached = true →
        s.stkModal = some m →
        dispatchClick s =
          { s with
            defaultPrevented := true
            stkModal := some { m with display := "block" }
            pending := s.pending ++ [{ id := s.nextTimerId, delay := 5000, due := s.now + 5000 }]
            nextTimerId := s.nextTimerId + 1 })
    ∧ (∀ (t : Timer) (m : Element), t ∈ s.pending → t.id = id → s.stkModal = some m →
        fireTimer id s =
          { s with
            stkModal := some { m with innerHTML := successMarkup }
            pending := s.pending.filter (fun t => t.id ≠ id)
            firedLog := s.firedLog ++ [id] }) := by
  refine ⟨modalContent_dispatchClick s, modalDisplay_fireTimer id s, ?_, ?_, ?_, ?_⟩
  · unfold dispatchClick
    cases hb : s.completeOrderBtn with
    | none => simp [hb]
    | some b =>
      cases hl : s.listenerAttached with
      | false => simp [hb, hl]
      | true =>
        cases hm : s.stkModal with
        | none => simp [clickListener, hm, report, hb, hl]
        | some m => simp [clickListener, hm, report, setTimeout, hb, hl]
  · unfold fireTimer
    cases hf : s.pending.find? (fun t => t.id = id) with
    | none => simp
    | some t =>
      cases hm : s.stkModal with
      | none => simp [timerCallback, hm, report]
      | some m => simp [timerCallback, hm, report]
  · intro b m hb hl hm
    exact dispatchClick_of_ready hb hl hm
  · intro t m ht hid hm
    obtain ⟨u, hu⟩ := find_pending_of_mem ⟨t, ht, hid⟩
    exact fireTimer_of_pending hu hm

theorem C10_disjoint_writes_witness :
    (dispatchClick samplePage).completeOrderBtn = some ⟨"inline-block", "Complete Order"⟩
    ∧ (dispatchClick samplePage).listenerAttached = true
    ∧ (dispatchClick samplePage).stkModal = some ⟨"block", "<p>Waiting for PIN</p>"⟩
    ∧ (⟨0, 5000, 5000⟩ : Timer) ∈ (dispatchClick samplePage).pending
    ∧ dispatchClick (dispatchClick samplePage) =
        { dispatchClick samplePage with
          defaultPrevented := true
          stkModal := some ⟨"block", "<p>Waiting for PIN</p>"⟩
          pending := (dispatchClick samplePage).pending
            ++ [{ id := (dispatchClick samplePage).nextTimerId, delay := 5000,
                  due := (dispatchClick samplePage).now + 5000 }]
          nextTimerId := (dispatchClick samplePage).nextTimerId + 1 }
    ∧ fireTimer 0 (dispatchClick samplePage) =
        { dispatchClick samplePage with
          stkModal := some ⟨"block", successMarkup⟩
          pending := (dispatchClick samplePage).pending.filter (fun t => t.id ≠ 0)
          firedLog := (dispatchClick samplePage).firedLog ++ [0] } :=
  ⟨rfl, rfl, rfl, by decide,
    (C10_disjoint_writes (dispatchClick samplePage) 0).2.2.2.2.1 _ _ rfl rfl rfl,
    (C10_disjoint_writes (dispatchClick samplePage) 0).2.2.2.2.2 ⟨0, 5000, 5000⟩ _
      (by decide) rfl rfl⟩

/-- C7: clicks neither coalesce nor cancel timers.  In every state the loaded
page (control and container present) can reach, a click appends one timer
to the pending list, so k pending timers become k+1, and every pending timer
has the delay 5000.  Two clicks in a row on the loaded page leave exactly the
two timers 0 and 1 pending; none of them runs before 5000 ms have passed;
once 5000 ms or more have passed both have run, in order, and nothing is
pending; and in every state that follows the two clicks each of the two
timers is either still pending and has not run, or is not pending and has
run exactly once. -/
theorem C7_clicks_do_not_coalesce (b m : Element) (s : PageState)
    (hr : Reachable (loadPage (some b) (some m)) s) :
    (dispatchClick s).pending
        = s.pending ++ [{ id := s.nextTimerId, delay := 5000, due := s.now + 5000 }]
    ∧ (dispatchClick s).pending.length = s.pending.length + 1
    ∧ (∀ t ∈ (dispatchClick s).pending, t.delay = 5000)
    ∧ (dispatchClick (dispatchClick (loadPage (some b) (some m)))).pending
        = [⟨0, 5000, 5000⟩, ⟨1, 5000, 5000⟩]
    ∧ (∀ ms, ms < 5000 →
        (elapse ms (dispatchClick (dispatchClick (loadPage (some b) (some m))))).pending
            = [⟨0, 5000, 5000⟩, ⟨1, 5000, 5000⟩]
        ∧ (elapse ms (dispatchClick (dispatchClick (loadPage (some b) (some m))))).firedLog = [])
    ∧ (∀ ms, 5000 ≤ ms →
        (elapse ms (dispatchClick (dispatchClick (loadPage (some b) (some m))))).pending = []
        ∧ (elapse ms (dispatchClick (dispatchClick (loadPage (some b) (some m))))).firedLog
            = [0, 1])
    ∧ (∀ q, Reachable (dispatchClick (dispatchClick (loadPage (some b) (some m)))) q →
        ∀ i, i < 2 →
          (i ∈ pendingIds q ∧ q.firedLog.count i = 0)
          ∨ (i ∉ pendingIds q ∧ q.firedLog.count i = 1)) := by
  have hready : Ready s :=
    hr.induct_inv (P := Ready) (Ready_loadPage b m) Ready_dispatchClick Ready_fireTimer Ready_now
  have hready2 : Ready (dispatchClick s) := Ready_dispatchClick s hready
  obtain ⟨hb, hl, hm, _⟩ := hready
  have hp : (dispatchClick s).pending
      = s.pending ++ [{ id := s.nextTimerId, delay := 5000, due := s.now + 5000 }] := by
    cases hbb : s.completeOrderBtn with
    | none => simp [hbb] at hb
    | some b2 =>
      cases hmm : s.stkModal with
      | none => simp [hmm] at hm
      | some m2 => rw [dispatchClick_of_ready hbb hl hmm]
  refine ⟨hp, by rw [hp]; simp, hready2.2.2.2, by rw [twoClicks_eq], ?_, ?_, ?_⟩
  · intro ms hms
    rw [elapse_of_none_due]
    · rw [twoClicks_eq]
      exact ⟨rfl, rfl⟩
    · rw [twoClicks_eq]
      intro t ht
      simp only [List.mem_cons, List.mem_singleton, List.not_mem_nil, or_false] at ht
      rcases ht with ht | ht <;> subst ht <;> simp only <;> omega
  · intro ms hms
    rw [twoClicks_elapse b m ms hms]
    exact ⟨rfl, rfl⟩
  · intro q hq i hi
    have hinv : TimersSound q ∧ 2 ≤ q.nextTimerId := by
      refine hq.induct_inv (P := fun q => TimersSound q ∧ 2 ≤ q.nextTimerId) ?_ ?_ ?_ ?_
      · refine ⟨TimersSound_dispatchClick _ (TimersSound_dispatchClick _
          (TimersSound_loadPage _ _)), ?_⟩
        rw [twoClicks_eq]
      · intro q ⟨h1, h2⟩
        exact ⟨TimersSound_dispatchClick q h1,
          Nat.le_trans h2 (nextTimerId_le_dispatchClick q)⟩
      · intro id q ⟨h1, h2⟩
        exact ⟨TimersSound_fireTimer id q h1, by rw [nextTimerId_fireTimer]; exact h2⟩
      · intro q n h
        exact h
    exact hinv.1.1 i (by omega)

theorem C7_clicks_do_not_coalesce_witness :
    Reachable (loadPage (some ⟨"inline-block", "Complete Order"⟩)
        (some ⟨"none", "<p>Waiting for PIN</p>"⟩)) (dispatchClick samplePage)
    ∧ (dispatchClick (dispatchClick samplePage)).pending
        = (dispatchClick samplePage).pending
          ++ [{ id := (dispatchClick samplePage).nextTimerId, delay := 5000,
                due := (dispatchClick samplePage).now + 5000 }]
    ∧ (dispatchClick (dispatchClick samplePage)).pending.length
        = (dispatchClick samplePage).pending.length + 1
    ∧ (⟨1, 5000, 5000⟩ : Timer).delay = 5000 :=
  ⟨Reachable.click Reachable.start,
    (C7_clicks_do_not_coalesce _ _ (dispatchClick samplePage)
      (Reachable.click Reachable.start)).1,
    (C7_clicks_do_not_coalesce _ _ (dispatchClick samplePage)
      (Reachable.click Reachable.start)).2.1,
    (C7_clicks_do_not_coalesce _ _ (dispatchClick samplePage)
      (Reachable.click Reachable.start)).2.2.1 ⟨1, 5000, 5000⟩ (by decide)⟩

/-- C9: the outcome does not depend on the number of clicks.  On the loaded
page (control and container present), after every sequence of clicks and
timer runs that contains at least one click and leaves no timer pending, the
container is shown with the success markup, exactly as after one click and
one timer run, and the timers that ran are, each once, the timers of the
clicks; the same holds in every state reached with passages of time, where
the identifier counter counts the clicks.  The overwrite is idempotent: on a
state whose container already holds the success markup the callback returns
the very same state, and a timer run leaves the container as it was. -/
theorem C9_outcome_independent_of_click_count (b m : Element) (tr : List Event)
    (hn : 1 ≤ clicks tr) (hdone : (run (loadPage (some b) (some m)) tr).pending = []) :
    (run (loadPage (some b) (some m)) tr).stkModal
        = some { display := "block", innerHTML := successMarkup }
    ∧ (run (loadPage (some b) (some m)) tr).stkModal
        = (run (loadPage (some b) (some m)) [Event.click, Event.timerFires 0]).stkModal
    ∧ (run (loadPage (some b) (some m)) tr).firedLog.Perm (List.range (clicks tr))
    ∧ (∀ q, Reachable (loadPage (some b) (some m)) q → 1 ≤ q.nextTimerId → q.pending = [] →
        q.stkModal = some { display := "block", innerHTML := successMarkup }
        ∧ q.firedLog.Perm (List.range q.nextTimerId))
    ∧ (∀ s : PageState, modalContent s = some successMarkup →
        timerCallback s = .normal s ∧ ∀ id, (fireTimer id s).stkModal = s.stkModal) := by
  have hS : Settling (run (loadPage (some b) (some m)) tr) :=
    run_induct (P := Settling) Settling_dispatchClick Settling_fireTimer tr _
      (Settling_loadPage b m)
  have hnid : (run (loadPage (some b) (some m)) tr).nextTimerId = clicks tr := by
    rw [run_nextTimerId tr _ (Ready_loadPage b m)]
    simp [loadPage, freshPage, domContentLoaded, report]
  have hfin := Settling_done _ hS (by rw [hnid]; exact hn) hdone
  rw [hnid] at hfin
  refine ⟨hfin.1, ?_, hfin.2, ?_, ?_⟩
  · rw [hfin.1]
    simp [run, step, loadPage, freshPage, domContentLoaded, report, dispatchClick, clickListener,
      setTimeout, fireTimer, timerCallback]
  · intro q hq hq1 hq2
    exact Settling_done q
      (hq.induct_inv (P := Settling) (Settling_loadPage b m) Settling_dispatchClick
        Settling_fireTimer Settling_now) hq1 hq2
  · intro s hs
    exact ⟨timerCallback_of_success s hs, fun id => stkModal_fireTimer_of_success id s hs⟩

theorem C9_outcome_independent_of_click_count_witness :
    1 ≤ clicks [Event.click, Event.click, Event.timerFires 1, Event.click, Event.timerFires 0,
        Event.timerFires 2]
    ∧ (run (loadPage (some ⟨"inline-block", "Complete Order"⟩)
          (some ⟨"none", "<p>Waiting for PIN</p>"⟩))
        [Event.click, Event.click, Event.timerFires 1, Event.click, Event.timerFires 0,
          Event.timerFires 2]).pending = []
    ∧ (run (loadPage (some ⟨"inline-block", "Complete Order"⟩)
          (some ⟨"none", "<p>Waiting for PIN</p>"⟩))
        [Event.click, Event.click, Event.timerFires 1, Event.click, Event.timerFires 0,
          Event.timerFires 2]).stkModal
        = some { display := "block", innerHTML := successMarkup } :=
  ⟨by decide, by decide,
    (C9_outcome_independent_of_click_count _ _
      [Event.click, Event.click, Event.timerFires 1, Event.click, Event.timerFires 0,
        Event.timerFires 2] (by decide) (by decide)).1⟩

/-- C6: the initializer of a page that has the control and lacks the
container ends normally and registers the listener, but the click handler
then throws a TypeError (after setting the event flag, before scheduling any
timer), and the dispatched click reports that error. -/
theorem C6_click_throws_without_container :
    domContentLoaded (freshPage (some ⟨"inline-block", "Complete Order"⟩) none)
        = .normal sampleNoModal
    ∧ sampleNoModal.listenerAttached = true
    ∧ clickListener sampleNoModal
        = .throw .typeError { sampleNoModal with defaultPrevented := true }
    ∧ (clickListener sampleNoModal).error = some .typeError
    ∧ (dispatchClick sampleNoModal).uncaught = [.typeError]
    ∧ (dispatchClick sampleNoModal).pending = [] := by
  refine ⟨rfl, rfl, rfl, rfl, rfl, rfl⟩

end Sokoswift
